import Mathlib

/-!
Shallow embedding of the go-chip8 interpreter core (src/emulator/screen.go).

The Go `chip8` struct is embedded as the structure `Chip8`; fixed-size Go
arrays become functions out of `Fin n`; Go byte / uint16 arithmetic is
mirrored by explicit `% 256` / `% 65536` at every operation where the Go
type forces a wrap.  A Go array access whose index can be out of range
(which panics at runtime in Go) is embedded as an `Except String` value
whose error branch corresponds to the runtime panic.  Go loops are embedded
either as folds over `List.range` (in source iteration order) or as
structurally recursive helpers whose fuel strictly exceeds the loop bound.
-/

namespace Chip8Emu

/-- The start address for ROM data, `START_ADDRESS` in the source. -/
def START_ADDRESS : Nat := 0x200

/-- The font table base address, `FONTSET_START_ADDRESS` in the source. -/
def FONTSET_START_ADDRESS : Nat := 0x50

/-- The Go `chip8` struct: 16 byte registers, 4096 bytes of memory, the
16-bit index register and program counter, the 16-slot stack with its byte
stack pointer, the two byte timers, the currently fetched opcode word, the
16-entry keypad latch and the 32x64 pixel grid of uint32 cells. -/
structure Chip8 where
  registers : Fin 16 → Nat
  memory : Fin 4096 → Nat
  indexRegister : Nat
  programCounter : Nat
  stack : Fin 16 → Nat
  stackPointer : Nat
  delayTimer : Nat
  soundTimer : Nat
  opcode : Nat
  keypad : Fin 16 → Nat
  pixels : Fin 32 → Fin 64 → Nat

/-- The register operand x of the fetched word: `byte((opcode & 0x0F00) >> 8)`. -/
def vxIdx (op : Nat) : Fin 16 :=
  ⟨(op &&& 0x0F00) >>> 8, by
    have h : op &&& 0x0F00 ≤ 0x0F00 := Nat.and_le_right
    have h2 : (op &&& 0x0F00) >>> 8 = (op &&& 0x0F00) / 256 := by
      rw [Nat.shiftRight_eq_div_pow]
    omega⟩

/-- The register operand y of the fetched word: `byte((opcode & 0x00F0) >> 4)`. -/
def vyIdx (op : Nat) : Fin 16 :=
  ⟨(op &&& 0x00F0) >>> 4, by
    have h : op &&& 0x00F0 ≤ 0x00F0 := Nat.and_le_right
    have h2 : (op &&& 0x00F0) >>> 4 = (op &&& 0x00F0) / 16 := by
      rw [Nat.shiftRight_eq_div_pow]
    omega⟩

/-- Write register i, mirroring `c8.registers[i] = v`. -/
def setReg (s : Chip8) (i : Fin 16) (v : Nat) : Chip8 :=
  { s with registers := fun j => if j = i then v else s.registers j }

/-- Write one framebuffer cell, mirroring `c8.pixels[r][c] = v`. -/
def setPix (s : Chip8) (r : Fin 32) (c : Fin 64) (v : Nat) : Chip8 :=
  { s with pixels := fun r2 c2 => if r2 = r ∧ c2 = c then v else s.pixels r2 c2 }

/-- One iteration of the inner column loop of `opDxyn`: if bit
`0x80 >> col` of the sprite byte is set, test the screen cell
`pixels[vy][vx]` against 1 for collision and XOR that cell with 1.
Note the source indexes the frame buffer with the register numbers
`vy`, `vx` themselves and ignores `row` and `col` for addressing. -/
def drawBit (spriteByte : Nat) (ry : Fin 32) (cx : Fin 64) (s : Chip8) (col : Nat) : Chip8 :=
  if spriteByte &&& (0x80 >>> col) ≠ 0 then
    let s1 := if s.pixels ry cx = 1 then setReg s 15 1 else s
    setPix s1 ry cx (s1.pixels ry cx ^^^ 1)
  else s

/-- The inner column loop of `opDxyn`, columns 0 through 7 in order. -/
def drawRow (ry : Fin 32) (cx : Fin 64) (spriteByte : Nat) (s : Chip8) : Chip8 :=
  (List.range 8).foldl (drawBit spriteByte ry cx) s

/-- The row loop of `opDxyn` (`for row := 0; row < height; row++`): read
the sprite byte at `memory[indexRegister + row]` (uint16 sum, Go bounds
check, panic embedded as the error branch) and run the column loop on it.
The height is a nibble, at most 15, so a fuel of 16 from row 0 is exact. -/
def drawRows (ry : Fin 32) (cx : Fin 64) (height : Nat) : Nat → Nat → Chip8 → Except String Chip8
  | _, 0, t => Except.ok t
  | row, fuel + 1, t =>
    if row < height then
      let addr := (t.indexRegister + row) % 65536
      if h : addr < 4096 then
        drawRows ry cx height (row + 1) fuel (drawRow ry cx (t.memory ⟨addr, h⟩) t)
      else Except.error "memory index out of range"
    else Except.ok t

/-- DRW Vx,Vy,n (`opDxyn`): clear VF, then run the row loop over the n
sprite rows.  The frame buffer cell touched is always `pixels[vy][vx]`
where vy and vx are the register operand numbers. -/
def opDxyn (s : Chip8) : Except String Chip8 :=
  let x := vxIdx s.opcode
  let y := vyIdx s.opcode
  let height := s.opcode &&& 0x000F
  let ry : Fin 32 := ⟨y.val, by have := y.isLt; omega⟩
  let cx : Fin 64 := ⟨x.val, by have := x.isLt; omega⟩
  drawRows ry cx height 0 16 (setReg s 15 0)

/-- CLS (`op00E0`): set every pixel to 0. -/
def op00E0 (s : Chip8) : Chip8 :=
  { s with pixels := fun _ _ => 0 }

/-- RET (`op00EE`): decrement the byte stack pointer (wrapping mod 256,
as the Go `byte` type does), then read `stack[stackPointer]`; the read is
a Go bounds-checked array access, so an index of 16 or more panics. -/
def op00EE (s : Chip8) : Except String Chip8 :=
  let sp := (s.stackPointer + 255) % 256
  if h : sp < 16 then
    Except.ok { s with stackPointer := sp, programCounter := s.stack ⟨sp, h⟩ }
  else Except.error "stack index out of range"

/-- JP nnn (`op1nnn`). -/
def op1nnn (s : Chip8) : Chip8 :=
  { s with programCounter := s.opcode &&& 0x0FFF }

/-- CALL nnn (`op2nnn`): write `stack[stackPointer]` (bounds-checked, so a
stack pointer of 16 or more panics), increment the byte stack pointer,
jump. -/
def op2nnn (s : Chip8) : Except String Chip8 :=
  let address := s.opcode &&& 0x0FFF
  if h : s.stackPointer < 16 then
    Except.ok
      { s with
        stack := fun j => if j = (⟨s.stackPointer, h⟩ : Fin 16) then s.programCounter else s.stack j
        stackPointer := (s.stackPointer + 1) % 256
        programCounter := address }
  else Except.error "stack index out of range"

/-- SE Vx,kk (`op3xkk`). -/
def op3xkk (s : Chip8) : Chip8 :=
  let x := vxIdx s.opcode
  let b := s.opcode &&& 0x00FF
  if s.registers x = b then { s with programCounter := (s.programCounter + 2) % 65536 } else s

/-- SNE Vx,kk (`op4xkk`). -/
def op4xkk (s : Chip8) : Chip8 :=
  let x := vxIdx s.opcode
  let b := s.opcode &&& 0x00FF
  if s.registers x ≠ b then { s with programCounter := (s.programCounter + 2) % 65536 } else s

/-- SE Vx,Vy (`op5xy0`). -/
def op5xy0 (s : Chip8) : Chip8 :=
  let x := vxIdx s.opcode
  let y := vyIdx s.opcode
  if s.registers x = s.registers y then
    { s with programCounter := (s.programCounter + 2) % 65536 }
  else s

/-- LD Vx,kk (`op6xkk`). -/
def op6xkk (s : Chip8) : Chip8 :=
  setReg s (vxIdx s.opcode) (s.opcode &&& 0x00FF)

/-- ADD Vx,kk (`op7xkk`): byte addition wraps mod 256. -/
def op7xkk (s : Chip8) : Chip8 :=
  let x := vxIdx s.opcode
  setReg s x ((s.registers x + (s.opcode &&& 0x00FF)) % 256)

/-- LD Vx,Vy (`op8xy0`). -/
def op8xy0 (s : Chip8) : Chip8 :=
  setReg s (vxIdx s.opcode) (s.registers (vyIdx s.opcode))

/-- OR Vx,Vy (`op8xy1`). -/
def op8xy1 (s : Chip8) : Chip8 :=
  let x := vxIdx s.opcode
  setReg s x (s.registers x ||| s.registers (vyIdx s.opcode))

/-- AND Vx,Vy (`op8xy2`). -/
def op8xy2 (s : Chip8) : Chip8 :=
  let x := vxIdx s.opcode
  setReg s x (s.registers x &&& s.registers (vyIdx s.opcode))

/-- XOR Vx,Vy (`op8xy3`). -/
def op8xy3 (s : Chip8) : Chip8 :=
  let x := vxIdx s.opcode
  setReg s x (s.registers x ^^^ s.registers (vyIdx s.opcode))

/-- ADD Vx,Vy (`op8xy4`): the uint16 sum is taken first, then VF is set
from the carry test, then Vx receives the low byte of the sum. -/
def op8xy4 (s : Chip8) : Chip8 :=
  let x := vxIdx s.opcode
  let y := vyIdx s.opcode
  let sum := (s.registers x + s.registers y) % 65536
  let s1 := if 255 < sum then setReg s 15 1 else setReg s 15 0
  setReg s1 x (sum &&& 0xFF)

/-- SUB Vx,Vy (`op8xy5`): VF from the borrow test on the original values,
then the wrapping byte subtraction reads the post-flag-write registers. -/
def op8xy5 (s : Chip8) : Chip8 :=
  let x := vxIdx s.opcode
  let y := vyIdx s.opcode
  let s1 := if s.registers y < s.registers x then setReg s 15 1 else setReg s 15 0
  setReg s1 x (((s1.registers x + 256) - s1.registers y) % 256)

/-- SHR Vx (`op8xy6`): VF receives the low bit of Vx first, then Vx (read
back after the flag write) is shifted right by one. -/
def op8xy6 (s : Chip8) : Chip8 :=
  let x := vxIdx s.opcode
  let s1 := setReg s 15 (s.registers x &&& 0x1)
  setReg s1 x (s1.registers x >>> 1)

/-- SUBN Vx,Vy (`op8xy7`). -/
def op8xy7 (s : Chip8) : Chip8 :=
  let x := vxIdx s.opcode
  let y := vyIdx s.opcode
  let s1 := if s.registers x < s.registers y then setReg s 15 1 else setReg s 15 0
  setReg s1 x (((s1.registers y + 256) - s1.registers x) % 256)

/-- SHL Vx (`op8xyE`): VF receives bit 7 of Vx first, then Vx (read back
after the flag write) is shifted left by one, wrapping as a byte. -/
def op8xyE (s : Chip8) : Chip8 :=
  let x := vxIdx s.opcode
  let s1 := setReg s 15 ((s.registers x &&& 0x80) >>> 7)
  setReg s1 x ((s1.registers x <<< 1) % 256)

/-- SNE Vx,Vy (`op9xy0`). -/
def op9xy0 (s : Chip8) : Chip8 :=
  let x := vxIdx s.opcode
  let y := vyIdx s.opcode
  if s.registers x ≠ s.registers y then
    { s with programCounter := (s.programCounter + 2) % 65536 }
  else s

/-- LD I,nnn (`opAnnn`). -/
def opAnnn (s : Chip8) : Chip8 :=
  { s with indexRegister := s.opcode &&& 0x0FFF }

/-- JP V0,nnn (`opBnnn`): uint16 sum of V0 and the address. -/
def opBnnn (s : Chip8) : Chip8 :=
  { s with programCounter := (s.registers 0 + (s.opcode &&& 0x0FFF)) % 65536 }

/-- The source `randomByte` returns `byte(rand.IntN(255))`; the value the
generator produced is passed in as `rndInt`. -/
def randomByte (rndInt : Nat) : Nat := rndInt % 256

/-- RND Vx,kk (`opCxkk`): the source ADDS the masked random byte to Vx
(`+=`) rather than assigning it. -/
def opCxkk (rndInt : Nat) (s : Chip8) : Chip8 :=
  let x := vxIdx s.opcode
  let b := s.opcode &&& 0x00FF
  setReg s x ((s.registers x + (randomByte rndInt &&& b)) % 256)

/-- SKP Vx (`opEx9E`): `keypad[registers[vx]]` is a bounds-checked Go
array access with the full byte register value as the index. -/
def opEx9E (s : Chip8) : Except String Chip8 :=
  let key := s.registers (vxIdx s.opcode)
  if h : key < 16 then
    if s.keypad ⟨key, h⟩ ≠ 0 then
      Except.ok { s with programCounter := (s.programCounter + 2) % 65536 }
    else Except.ok s
  else Except.error "keypad index out of range"

/-- SKNP Vx (`opExA1`): same indexing as `opEx9E`, inverted test. -/
def opExA1 (s : Chip8) : Except String Chip8 :=
  let key := s.registers (vxIdx s.opcode)
  if h : key < 16 then
    if s.keypad ⟨key, h⟩ = 0 then
      Except.ok { s with programCounter := (s.programCounter + 2) % 65536 }
    else Except.ok s
  else Except.error "keypad index out of range"

/-- LD Vx,DT (`opFx07`). -/
def opFx07 (s : Chip8) : Chip8 :=
  setReg s (vxIdx s.opcode) s.delayTimer

/-- The ascending scan of the keypad in `opFx0A` (`for k, v := range
c8.keypad`), returning the first index holding a nonzero value.  The scan
visits at most 16 entries, so a fuel of 16 from start index 0 is exact. -/
def findPressedAux (s : Chip8) : Nat → Nat → Option (Fin 16)
  | _, 0 => none
  | k, fuel + 1 =>
    if h : k < 16 then
      if s.keypad ⟨k, h⟩ ≠ 0 then some ⟨k, h⟩ else findPressedAux s (k + 1) fuel
    else none

/-- LD Vx,K (`opFx0A`): store the first pressed key index into Vx and
return; if no key is pressed, roll the program counter back by 2
(uint16 subtraction). -/
def opFx0A (s : Chip8) : Chip8 :=
  match findPressedAux s 0 16 with
  | some m =>
      { s with registers := fun j => if j = vxIdx s.opcode then (m.val : Nat) else s.registers j }
  | none => { s with programCounter := (s.programCounter + 65534) % 65536 }

/-- LD DT,Vx (`opFx15`). -/
def opFx15 (s : Chip8) : Chip8 :=
  { s with delayTimer := s.registers (vxIdx s.opcode) }

/-- LD ST,Vx (`opFx18`). -/
def opFx18 (s : Chip8) : Chip8 :=
  { s with soundTimer := s.registers (vxIdx s.opcode) }

/-- ADD I,Vx (`opFx1E`): uint16 addition wraps mod 65536. -/
def opFx1E (s : Chip8) : Chip8 :=
  { s with indexRegister := (s.indexRegister + s.registers (vxIdx s.opcode)) % 65536 }

/-- LD F,Vx (`opFx29`). -/
def opFx29 (s : Chip8) : Chip8 :=
  { s with indexRegister := (FONTSET_START_ADDRESS + 5 * s.registers (vxIdx s.opcode)) % 65536 }

/-- LD B,Vx (`opFx33`): write the ones digit at `memory[indexRegister+2]`,
the tens digit at `memory[indexRegister+1]`, the hundreds digit at
`memory[indexRegister]`, each a bounds-checked access of the uint16 sum. -/
def opFx33 (s : Chip8) : Except String Chip8 :=
  let v := s.registers (vxIdx s.opcode)
  let a2 := (s.indexRegister + 2) % 65536
  if h2 : a2 < 4096 then
    let s2 := { s with memory := fun m => if m = (⟨a2, h2⟩ : Fin 4096) then v % 10 else s.memory m }
    let v1 := v / 10
    let a1 := (s.indexRegister + 1) % 65536
    if h1 : a1 < 4096 then
      let s1 :=
        { s2 with memory := fun m => if m = (⟨a1, h1⟩ : Fin 4096) then v1 % 10 else s2.memory m }
      let v0 := v1 / 10
      let a0 := s.indexRegister % 65536
      if h0 : a0 < 4096 then
        Except.ok
          { s1 with memory := fun m => if m = (⟨a0, h0⟩ : Fin 4096) then v0 % 10 else s1.memory m }
      else Except.error "memory index out of range"
    else Except.error "memory index out of range"
  else Except.error "memory index out of range"

/-- The loop of `opFx55`: `for i := byte(0); i <= vx; i++` writing
`memory[byte(indexRegister)+i] = registers[i]`.  The index expression
truncates the index register to its low byte and the byte sum wraps mod
256.  The loop runs at most 16 iterations, so a fuel of 16 from start
index 0 is exact. -/
def storeRegs (x : Fin 16) : Nat → Nat → Chip8 → Chip8
  | _, 0, t => t
  | i, fuel + 1, t =>
    if hi : i ≤ x.val then
      let a : Fin 4096 := ⟨((t.indexRegister % 256) + i) % 256, by omega⟩
      let r : Fin 16 := ⟨i, by have := x.isLt; omega⟩
      storeRegs x (i + 1) fuel
        { t with memory := fun m => if m = a then t.registers r else t.memory m }
    else t

/-- LD [I],Vx (`opFx55`). -/
def opFx55 (s : Chip8) : Chip8 :=
  storeRegs (vxIdx s.opcode) 0 16 s

/-- The loop of `opFx65`: `for i := byte(0); i <= vx; i++` reading
`registers[i] = memory[byte(indexRegister)+i]`, with the same byte
truncation of the index register as `storeRegs`. -/
def loadRegs (x : Fin 16) : Nat → Nat → Chip8 → Chip8
  | _, 0, t => t
  | i, fuel + 1, t =>
    if hi : i ≤ x.val then
      let a : Fin 4096 := ⟨((t.indexRegister % 256) + i) % 256, by omega⟩
      let r : Fin 16 := ⟨i, by have := x.isLt; omega⟩
      loadRegs x (i + 1) fuel
        { t with registers := fun j => if j = r then t.memory a else t.registers j }
    else t

/-- LD Vx,[I] (`opFx65`). -/
def opFx65 (s : Chip8) : Chip8 :=
  loadRegs (vxIdx s.opcode) 0 16 s

/-- The fetch step of `cycle`: big-endian combination of the two
bounds-checked memory reads at the program counter. -/
def fetch (s : Chip8) : Except String Nat :=
  if h1 : s.programCounter < 4096 then
    let p2 := (s.programCounter + 1) % 65536
    if h2 : p2 < 4096 then
      Except.ok ((s.memory ⟨s.programCounter, h1⟩ <<< 8) ||| s.memory ⟨p2, h2⟩)
    else Except.error "memory index out of range"
  else Except.error "memory index out of range"

/-- The inner switch of `cycle` for the 0x0 family (`opcode & 0x000F`);
an unmatched sub-selector falls through and leaves the state unchanged. -/
def exec0 (s : Chip8) : Except String Chip8 :=
  let u := s.opcode &&& 0x000F
  if u = 0x0000 then Except.ok (op00E0 s)
  else if u = 0x000E then op00EE s
  else Except.ok s

/-- The inner switch of `cycle` for the 0x8 family (`opcode & 0x000F`);
an unmatched sub-selector falls through and leaves the state unchanged. -/
def exec8 (s : Chip8) : Except String Chip8 :=
  let u := s.opcode &&& 0x000F
  if u = 0x0000 then Except.ok (op8xy0 s)
  else if u = 0x0001 then Except.ok (op8xy1 s)
  else if u = 0x0002 then Except.ok (op8xy2 s)
  else if u = 0x0003 then Except.ok (op8xy3 s)
  else if u = 0x0004 then Except.ok (op8xy4 s)
  else if u = 0x0005 then Except.ok (op8xy5 s)
  else if u = 0x0006 then Except.ok (op8xy6 s)
  else if u = 0x0007 then Except.ok (op8xy7 s)
  else if u = 0x000E then Except.ok (op8xyE s)
  else Except.ok s

/-- The inner switch of `cycle` for the 0xE family (`opcode & 0x000F`);
an unmatched sub-selector falls through and leaves the state unchanged. -/
def execE (s : Chip8) : Except String Chip8 :=
  let u := s.opcode &&& 0x000F
  if u = 0x0001 then opExA1 s
  else if u = 0x000E then opEx9E s
  else Except.ok s

/-- The inner switch of `cycle` for the 0xF family (`opcode & 0x00FF`);
an unmatched sub-selector falls through and leaves the state unchanged. -/
def execF (s : Chip8) : Except String Chip8 :=
  let u := s.opcode &&& 0x00FF
  if u = 0x0007 then Except.ok (opFx07 s)
  else if u = 0x000A then Except.ok (opFx0A s)
  else if u = 0x0015 then Except.ok (opFx15 s)
  else if u = 0x0018 then Except.ok (opFx18 s)
  else if u = 0x001E then Except.ok (opFx1E s)
  else if u = 0x0029 then Except.ok (opFx29 s)
  else if u = 0x0033 then opFx33 s
  else if u = 0x0055 then Except.ok (opFx55 s)
  else if u = 0x0065 then Except.ok (opFx65 s)
  else Except.ok s

/-- The decode-and-execute switch of `cycle`, acting on the opcode field
of the state.  Every one of the 16 top-nibble values has a case, so the
Go `default: log.Fatal` arm (the final error branch here) is unreachable;
inner switches with no matching case fall through and leave the state
unchanged. -/
def execOp (rndInt : Nat) (s : Chip8) : Except String Chip8 :=
  let t := s.opcode &&& 0xF000
  if t = 0x0000 then exec0 s
  else if t = 0x1000 then Except.ok (op1nnn s)
  else if t = 0x2000 then op2nnn s
  else if t = 0x3000 then Except.ok (op3xkk s)
  else if t = 0x4000 then Except.ok (op4xkk s)
  else if t = 0x5000 then Except.ok (op5xy0 s)
  else if t = 0x6000 then Except.ok (op6xkk s)
  else if t = 0x7000 then Except.ok (op7xkk s)
  else if t = 0x8000 then exec8 s
  else if t = 0x9000 then Except.ok (op9xy0 s)
  else if t = 0xA000 then Except.ok (opAnnn s)
  else if t = 0xB000 then Except.ok (opBnnn s)
  else if t = 0xC000 then Except.ok (opCxkk rndInt s)
  else if t = 0xD000 then opDxyn s
  else if t = 0xE000 then execE s
  else if t = 0xF000 then execF s
  else Except.error "cannot interpret instruction"

/-- The timer decay at the end of `cycle`: each timer is decremented by
one when nonzero, independently. -/
def tick (s : Chip8) : Chip8 :=
  let s1 := if 0 < s.delayTimer then { s with delayTimer := s.delayTimer - 1 } else s
  if 0 < s1.soundTimer then { s1 with soundTimer := s1.soundTimer - 1 } else s1

/-- One full `cycle`: fetch the word at the program counter, store it in
the opcode field, advance the program counter by 2, dispatch, then decay
the timers. -/
def cycle (rndInt : Nat) (s : Chip8) : Except String Chip8 :=
  match fetch s with
  | Except.error e => Except.error e
  | Except.ok w =>
    let s1 := { s with opcode := w, programCounter := (s.programCounter + 2) % 65536 }
    match execOp rndInt s1 with
    | Except.error e => Except.error e
    | Except.ok s2 => Except.ok (tick s2)

/-- A machine state exercising the draw instruction: opcode D011
(x = 0, y = 1, n = 1), register V0 = 5 and V1 = 6, index register 0x300,
memory holding the one-byte sprite 0x80 at 0x300, all pixels off. -/
def stC1 : Chip8 :=
  { registers := fun i => if i = 0 then 5 else if i = 1 then 6 else 0
    memory := fun a => if a.val = 0x300 then 0x80 else 0
    indexRegister := 0x300
    programCounter := 0x200
    stack := fun _ => 0
    stackPointer := 0
    delayTimer := 0
    soundTimer := 0
    opcode := 0xD011
    keypad := fun _ => 0
    pixels := fun _ _ => 0 }

/-- C1: the spec says DRW Vx,Vy,n XORs each set sprite bit into the pixel
at column (value of Vx + bit position) mod 64 and row (value of Vy + r)
mod 32, leaving every other pixel unchanged.  On the state stC1 (V0 = 5,
V1 = 6, sprite byte 0x80 at the index register, opcode D011) that target
pixel is row 6, column 5; the code instead leaves it off and toggles the
pixel at row 1, column 0 — it indexes the framebuffer with the register
operand numbers y = 1, x = 0 and ignores the register values and the bit
offsets entirely. -/
theorem drw_ignores_register_values :
    (opDxyn stC1).map (fun t => t.pixels 6 5) = Except.ok 0
  ∧ (opDxyn stC1).map (fun t => t.pixels 1 0) = Except.ok 1 := by
  exact ⟨rfl, rfl⟩

/-- A state for the draw/erase round trip: opcode D231 (x = 2, y = 3,
n = 1), registers V2 = V3 = 0, sprite byte 0x80 at index register 0x300,
and the only lit pixel is the one the buggy code touches, row 3 column 2. -/
def stC2 : Chip8 :=
  { registers := fun _ => 0
    memory := fun a => if a.val = 0x300 then 0x80 else 0
    indexRegister := 0x300
    programCounter := 0x200
    stack := fun _ => 0
    stackPointer := 0
    delayTimer := 0
    soundTimer := 0
    opcode := 0xD231
    keypad := fun _ => 0
    pixels := fun r c => if r.val = 3 ∧ c.val = 2 then 1 else 0 }

/-- C2: the spec says drawing the identical sprite at the identical
location twice restores the framebuffer and reports collision (VF = 1) on
the second draw.  On stC2 a correct implementation draws at (V2, V3) =
(0, 0), turning the pixel on and then detecting it on the second draw;
the code instead toggles the initially lit pixel at row 3 column 2 off
and back on, and its second draw finds the pixel off, ending with VF = 0:
the framebuffer is restored but no collision is reported. -/
theorem second_draw_reports_no_collision :
    ((opDxyn stC2).bind opDxyn).map (fun t => t.registers 15) = Except.ok 0
  ∧ ((opDxyn stC2).bind opDxyn).map (fun t => t.pixels 3 2) = Except.ok 1
  ∧ ((opDxyn stC2).bind opDxyn).map (fun t => t.pixels 0 0) = Except.ok 0 := by
  exact ⟨rfl, rfl, rfl⟩

/-- A state about to execute RET with the stack pointer already 0. -/
def stRET0 : Chip8 :=
  { registers := fun _ => 0
    memory := fun _ => 0
    indexRegister := 0
    programCounter := 0x200
    stack := fun _ => 0
    stackPointer := 0
    delayTimer := 0
    soundTimer := 0
    opcode := 0x00EE
    keypad := fun _ => 0
    pixels := fun _ _ => 0 }

/-- A state about to execute CALL with the stack pointer already 16. -/
def stCALL16 : Chip8 :=
  { stRET0 with stackPointer := 16, opcode := 0x2345 }

/-- C3: the spec says CALL at SP = 16 and RET at SP = 0 are dedicated
STACK_OVERFLOW / STACK_UNDERFLOW failures and never a silent stack-pointer
wraparound or out-of-bounds stack access.  The code has no such checks:
RET at SP = 0 silently wraps the byte stack pointer from 0 to 255 and then
performs the out-of-bounds read stack[255], and CALL at SP = 16 performs
the out-of-bounds write stack[16]; both die on the Go runtime bounds
check (the error branch of the embedding), not on a designed check. -/
theorem stack_overflow_underflow_via_oob :
    op00EE stRET0 = Except.error "stack index out of range"
  ∧ op2nnn stCALL16 = Except.error "stack index out of range" := by
  exact ⟨rfl, rfl⟩

/-- A state for LD [I],Vx: index register 0x200, opcode F055 (x = 0),
V0 = 0xAB, memory all zero. -/
def stC4 : Chip8 :=
  { registers := fun i => if i = 0 then 0xAB else 0
    memory := fun _ => 0
    indexRegister := 0x200
    programCounter := 0x200
    stack := fun _ => 0
    stackPointer := 0
    delayTimer := 0
    soundTimer := 0
    opcode := 0xF055
    keypad := fun _ => 0
    pixels := fun _ _ => 0 }

/-- A state for LD Vx,[I]: index register 0x200, opcode F065 (x = 0),
memory holding 0x77 at address 0 and 0x99 at address 0x200. -/
def stC4b : Chip8 :=
  { stC4 with
    opcode := 0xF065
    registers := fun _ => 0
    memory := fun a => if a.val = 0 then 0x77 else if a.val = 0x200 then 0x99 else 0 }

/-- C4: the spec says LD [I],Vx stores registers V0..Vx at addresses
I, I+1, ..., and LD Vx,[I] loads from those addresses, using the full
16-bit index register.  The code computes the address as
byte(indexRegister)+i, truncating I to its low byte: with I = 0x200 the
store of V0 = 0xAB lands at address 0, not 0x200, and the load of V0
reads address 0 (0x77), not 0x200 (0x99). -/
theorem regs_memory_ops_truncate_index :
    (opFx55 stC4).memory 0 = 0xAB
  ∧ (opFx55 stC4).memory 0x200 = 0
  ∧ (opFx65 stC4b).registers 0 = 0x77 := by
  exact ⟨rfl, rfl, rfl⟩

/-- A state whose next fetched word is 0x800F, an 0x8-family word with an
unknown low-nibble sub-selector. -/
def stC5 : Chip8 :=
  { registers := fun i => if i = 0 then 5 else 0
    memory := fun a => if a.val = 0x200 then 0x80 else if a.val = 0x201 then 0x0F else 0
    indexRegister := 0
    programCounter := 0x200
    stack := fun _ => 0
    stackPointer := 0
    delayTimer := 3
    soundTimer := 0
    opcode := 0
    keypad := fun _ => 0
    pixels := fun _ _ => 0 }

/-- C5: the spec says a fetched word whose required sub-selector matches
no instruction is a fatal decode failure that stops the loop.  Fetching
0x800F (no 0x8xyF instruction exists) instead completes the cycle
normally: the inner switch falls through, the step returns success with
the program counter advanced by 2, registers and memory untouched, and
the timers decayed — execution continues. -/
theorem unknown_opcode_silently_skipped :
    (cycle 0 stC5).map (fun t => t.programCounter) = Except.ok 0x202
  ∧ (cycle 0 stC5).map (fun t => t.opcode) = Except.ok 0x800F
  ∧ (cycle 0 stC5).map (fun t => t.registers) = Except.ok stC5.registers
  ∧ (cycle 0 stC5).map (fun t => t.memory) = Except.ok stC5.memory
  ∧ (cycle 0 stC5).map (fun t => t.delayTimer) = Except.ok 2 := by
  exact ⟨rfl, rfl, rfl, rfl, rfl⟩

/-- A state for RND Vx,kk: opcode C0FF (x = 0, kk = 0xFF), V0 = 1. -/
def stC6 : Chip8 :=
  { registers := fun i => if i = 0 then 1 else 0
    memory := fun _ => 0
    indexRegister := 0
    programCounter := 0x200
    stack := fun _ => 0
    stackPointer := 0
    delayTimer := 0
    soundTimer := 0
    opcode := 0xC0FF
    keypad := fun _ => 0
    pixels := fun _ _ => 0 }

/-- C6: the spec says RND Vx,kk assigns Vx the value r AND kk for a
random byte r, with the prior value of Vx not contributing.  The code
uses += : with V0 = 1, kk = 0xFF and random byte 2 the result is 3, not
2 = randomByte 2 AND kk — the prior value of Vx contributes. -/
theorem rnd_adds_instead_of_assigns :
    (opCxkk 2 stC6).registers 0 = 3
  ∧ (opCxkk 2 stC6).registers 0 ≠ (randomByte 2 &&& 0xFF) := by
  constructor
  · rfl
  · intro h
    simp only [show (opCxkk 2 stC6).registers 0 = 3 from rfl] at h
    exact absurd h (by decide)

set_option maxRecDepth 8192 in
/-- For byte values, the expression the source uses for the top bit,
(v AND 0x80) >> 7, is the same as the pre-shift most-significant bit
(v >> 7) AND 1 named by the spec. -/
lemma byte_msb_eq : ∀ v < 256, (v &&& 0x80) >>> 7 = (v >>> 7) &&& 1 := by decide

/-- Auxiliary: registers other than the written one are unchanged. -/
lemma setReg_ne (s : Chip8) (i j : Fin 16) (v : Nat) (h : j ≠ i) :
    (setReg s i v).registers j = s.registers j := by
  simp [setReg, h]

/-- Auxiliary: the written register holds the written value. -/
lemma setReg_eq (s : Chip8) (i : Fin 16) (v : Nat) :
    (setReg s i v).registers i = v := by
  simp [setReg]

/-- C7 (amended): the code writes VF before shifting register x in place,
so for every x other than 0xF, SHR sets VF to the pre-shift LSB and x to
the original value shifted right, and SHL sets x to the original value
shifted left mod 256 and VF to the pre-shift MSB (for byte register
values); for x = 0xF both writes land on VF, so SHR leaves VF = 0 (the
just-written LSB shifted right) and SHL leaves VF = twice the original
MSB, not the values the claim states. -/
theorem shr_shl_flag_semantics (s : Chip8) :
    (vxIdx s.opcode ≠ 15 →
        (op8xy6 s).registers 15 = s.registers (vxIdx s.opcode) &&& 1
      ∧ (op8xy6 s).registers (vxIdx s.opcode) = s.registers (vxIdx s.opcode) >>> 1
      ∧ (op8xyE s).registers (vxIdx s.opcode) = (s.registers (vxIdx s.opcode) <<< 1) % 256
      ∧ (s.registers (vxIdx s.opcode) < 256 →
          (op8xyE s).registers 15 = (s.registers (vxIdx s.opcode) >>> 7) &&& 1))
  ∧ (vxIdx s.opcode = 15 →
        (op8xy6 s).registers 15 = 0
      ∧ (s.registers 15 < 256 →
          (op8xyE s).registers 15 = 2 * ((s.registers 15 >>> 7) &&& 1))) := by
  constructor
  · intro hx
    have hx2 : (15 : Fin 16) ≠ vxIdx s.opcode := fun h => hx h.symm
    refine ⟨?_, ?_, ?_, ?_⟩
    · simp only [op8xy6]
      rw [setReg_ne _ _ _ _ hx2, setReg_eq]
    · simp only [op8xy6]
      rw [setReg_eq, setReg_ne _ _ _ _ hx]
    · simp only [op8xyE]
      rw [setReg_eq, setReg_ne _ _ _ _ hx]
    · intro hv
      simp only [op8xyE]
      rw [setReg_ne _ _ _ _ hx2, setReg_eq, byte_msb_eq _ hv]
  · intro hx
    constructor
    · simp only [op8xy6, hx]
      rw [setReg_eq, setReg_eq]
      have h1 : s.registers 15 &&& 0x1 ≤ 1 := Nat.and_le_right
      rcases Nat.le_one_iff_eq_zero_or_eq_one.mp h1 with h | h <;> rw [h] <;> rfl
    · intro hv
      simp only [op8xyE, hx]
      rw [setReg_eq, setReg_eq, byte_msb_eq _ hv]
      have h1 : (s.registers 15 >>> 7) &&& 1 ≤ 1 := Nat.and_le_right
      rcases Nat.le_one_iff_eq_zero_or_eq_one.mp h1 with h | h <;> rw [h] <;> rfl

/-- A state exercising SHR VF: opcode 8F06 (x = 0xF), VF = 2. -/
def stC7 : Chip8 :=
  { registers := fun i => if i = 15 then 2 else 0
    memory := fun _ => 0
    indexRegister := 0
    programCounter := 0x200
    stack := fun _ => 0
    stackPointer := 0
    delayTimer := 0
    soundTimer := 0
    opcode := 0x8F06
    keypad := fun _ => 0
    pixels := fun _ _ => 0 }

/-- C7 counterexample: with x = 0xF (opcode 8F06) and VF originally 2,
the claim requires the target register Vx = VF to end as the original
value shifted right by one, that is 1; the code leaves it 0, because the
shift is applied to the just-written flag value. -/
theorem shr_vf_counterexample :
    (op8xy6 stC7).registers (vxIdx stC7.opcode) ≠
      stC7.registers (vxIdx stC7.opcode) >>> 1 := by
  decide

/-- C7 witness: the amended theorem applied to the concrete states stC1
(x = 0, V0 = 5: SHR gives V0 = 2 and VF = 1) and stC7 (x = 0xF, VF = 2:
SHR leaves VF = 0). -/
theorem shr_shl_flag_witness :
    (op8xy6 stC1).registers 15 = 1
  ∧ (op8xy6 stC1).registers 0 = 2
  ∧ (op8xy6 stC7).registers 15 = 0 := by
  have h1 := (shr_shl_flag_semantics stC1).1 (by decide)
  have h2 := (shr_shl_flag_semantics stC7).2 (by decide)
  refine ⟨?_, ?_, h2.1⟩
  · rw [h1.1]; decide
  · have h3 := h1.2.1
    rw [show vxIdx stC1.opcode = 0 from by decide] at h3
    rw [h3]; decide

/-- Whether an embedded step succeeded (no Go runtime panic). -/
def isOkE (e : Except String Chip8) : Bool :=
  match e with
  | Except.ok _ => true
  | Except.error _ => false

/-- A state in which every register holds 16, so SKP/SKNP index the
16-entry keypad with the out-of-range value 16. -/
def stC9bad : Chip8 :=
  { registers := fun _ => 16
    memory := fun _ => 0
    indexRegister := 0
    programCounter := 0x200
    stack := fun _ => 0
    stackPointer := 0
    delayTimer := 0
    soundTimer := 0
    opcode := 0xE09E
    keypad := fun _ => 0
    pixels := fun _ _ => 0 }

/-- C9: SKP Vx and SKNP Vx index the 16-entry keypad array directly with
the 8-bit value of Vx: whenever that value is at most 0xF the access is
in bounds (the error branch is unreachable), and on the state stC9bad,
whose registers hold 16, the access is out of bounds — the key number is
never masked to four bits before indexing. -/
theorem keypad_indexing_bounds :
    (∀ s : Chip8, s.registers (vxIdx s.opcode) ≤ 15 →
      isOkE (opEx9E s) = true ∧ isOkE (opExA1 s) = true)
  ∧ isOkE (opEx9E stC9bad) = false ∧ isOkE (opExA1 stC9bad) = false := by
  refine ⟨fun s h => ⟨?_, ?_⟩, rfl, rfl⟩
  · simp only [opEx9E]
    rw [dif_pos (by omega : s.registers (vxIdx s.opcode) < 16)]
    split <;> rfl
  · simp only [opExA1]
    rw [dif_pos (by omega : s.registers (vxIdx s.opcode) < 16)]
    split <;> rfl

/-- C9 witness: the theorem applied to the concrete state stC1, whose
selected register holds 5. -/
theorem keypad_indexing_witness :
    isOkE (opEx9E stC1) = true ∧ isOkE (opExA1 stC1) = true :=
  keypad_indexing_bounds.1 stC1 (by decide)

/-- If every keypad entry from index k on is 0, the scan finds nothing. -/
lemma findPressedAux_none_of (s : Chip8) :
    ∀ fuel k, (∀ j : Fin 16, k ≤ j.val → s.keypad j = 0) →
      findPressedAux s k fuel = none := by
  intro fuel
  induction fuel with
  | zero => intro k _; rfl
  | succ n ih =>
    intro k h
    simp only [findPressedAux]
    split
    · rename_i hk
      rw [if_neg (not_ne_iff.mpr (h ⟨k, hk⟩ (Nat.le_refl k)))]
      exact ih (k + 1) (fun j hj => h j (by omega))
    · rfl

/-- If the scan starting at k returns index m, then m is pressed, m is at
least k, and every index from k up to m is unpressed: m is the first
pressed key at or after k. -/
lemma findPressedAux_some_spec (s : Chip8) :
    ∀ fuel k m, findPressedAux s k fuel = some m →
      s.keypad m ≠ 0 ∧ k ≤ m.val ∧
        ∀ j : Fin 16, k ≤ j.val → j.val < m.val → s.keypad j = 0 := by
  intro fuel
  induction fuel with
  | zero => intro k m h; exact Option.noConfusion h
  | succ n ih =>
    intro k m h
    simp only [findPressedAux] at h
    by_cases hk : k < 16
    · rw [dif_pos hk] at h
      by_cases hp : s.keypad ⟨k, hk⟩ ≠ 0
      · rw [if_pos hp] at h
        injection h with h
        subst h
        exact ⟨hp, Nat.le_refl k, fun j hj1 hj2 => absurd (Nat.lt_of_le_of_lt hj1 hj2)
          (Nat.lt_irrefl _)⟩
      · rw [if_neg hp] at h
        obtain ⟨h1, h2, h3⟩ := ih (k + 1) m h
        refine ⟨h1, by omega, fun j hj1 hj2 => ?_⟩
        by_cases hjk : j.val = k
        · have hje : j = (⟨k, hk⟩ : Fin 16) := Fin.ext hjk
          rw [hje]
          exact not_ne_iff.mp hp
        · exact h3 j (by omega) hj2
    · rw [dif_neg hk] at h
      exact Option.noConfusion h

/-- If the scan starting at k with the given fuel finds nothing, every
keypad entry with index in the scanned window is 0. -/
lemma findPressedAux_none_spec (s : Chip8) :
    ∀ fuel k, findPressedAux s k fuel = none →
      ∀ j : Fin 16, k ≤ j.val → j.val < k + fuel → s.keypad j = 0 := by
  intro fuel
  induction fuel with
  | zero => intro k _ j hj1 hj2; omega
  | succ n ih =>
    intro k h j hj1 hj2
    simp only [findPressedAux] at h
    by_cases hk : k < 16
    · rw [dif_pos hk] at h
      by_cases hp : s.keypad ⟨k, hk⟩ ≠ 0
      · rw [if_pos hp] at h
        exact Option.noConfusion h
      · rw [if_neg hp] at h
        by_cases hjk : j.val = k
        · have hje : j = (⟨k, hk⟩ : Fin 16) := Fin.ext hjk
          rw [hje]
          exact not_ne_iff.mp hp
        · exact ih (k + 1) h j (by omega) (by omega)
    · have := j.isLt
      omega

/-- C10: if no keypad key is pressed, LD Vx,K only rolls the program
counter back by 2 (uint16 subtraction), leaving registers, index
register, stack, timers, memory and framebuffer unchanged; if some key is
pressed, it writes the smallest pressed key index into Vx and leaves the
program counter (and everything except that register) unchanged. -/
theorem key_wait_semantics (s : Chip8) :
    ((∀ k : Fin 16, s.keypad k = 0) →
        opFx0A s = { s with programCounter := (s.programCounter + 65534) % 65536 }
      ∧ (2 ≤ s.programCounter → s.programCounter < 65536 →
          (opFx0A s).programCounter = s.programCounter - 2))
  ∧ (∀ k0 : Fin 16, s.keypad k0 ≠ 0 →
      ∃ m : Fin 16, s.keypad m ≠ 0 ∧ (∀ j : Fin 16, j.val < m.val → s.keypad j = 0) ∧
        opFx0A s =
          { s with registers :=
              fun i => if i = vxIdx s.opcode then (m.val : Nat) else s.registers i }
      ∧ (opFx0A s).programCounter = s.programCounter) := by
  constructor
  · intro hall
    have hf : findPressedAux s 0 16 = none :=
      findPressedAux_none_of s 16 0 (fun j _ => hall j)
    have he : opFx0A s = { s with programCounter := (s.programCounter + 65534) % 65536 } := by
      simp only [opFx0A, hf]
    refine ⟨he, fun h1 h2 => ?_⟩
    rw [he]
    show (s.programCounter + 65534) % 65536 = s.programCounter - 2
    omega
  · intro k0 hk0
    cases hf : findPressedAux s 0 16 with
    | none =>
      have := findPressedAux_none_spec s 16 0 hf k0 (Nat.zero_le _)
        (by have := k0.isLt; omega)
      exact absurd this hk0
    | some m =>
      obtain ⟨h1, _, h3⟩ := findPressedAux_some_spec s 16 0 m hf
      refine ⟨m, h1, fun j hj => h3 j (Nat.zero_le _) hj, ?_, ?_⟩
      · simp only [opFx0A, hf]
      · simp only [opFx0A, hf]

/-- A state awaiting a key with nothing pressed: opcode F30A, program
counter 0x204, all keypad entries 0. -/
def stNoKey : Chip8 :=
  { registers := fun _ => 0
    memory := fun _ => 0
    indexRegister := 0
    programCounter := 0x204
    stack := fun _ => 0
    stackPointer := 0
    delayTimer := 0
    soundTimer := 0
    opcode := 0xF30A
    keypad := fun _ => 0
    pixels := fun _ _ => 0 }

/-- The same state with keys 3 and 7 pressed. -/
def stKey : Chip8 :=
  { stNoKey with keypad := fun k => if k = 3 ∨ k = 7 then 1 else 0 }

/-- C10 witness: the theorem applied to stNoKey (the program counter
rolls back from 0x204 to 0x202) and to stKey (keys 3 and 7 pressed: the
smallest pressed index 3 is written into V3 and the program counter is
untouched). -/
theorem key_wait_witness :
    (opFx0A stNoKey).programCounter = 0x202
  ∧ (opFx0A stKey).registers 3 = 3
  ∧ (opFx0A stKey).programCounter = 0x204 := by
  refine ⟨?_, ?_, ?_⟩
  · have h := ((key_wait_semantics stNoKey).1 (fun _ => rfl)).2 (by decide) (by decide)
    simpa using h
  · obtain ⟨m, hm1, hm2, hm3, _⟩ := (key_wait_semantics stKey).2 3 (by decide)
    have hmeq : m = 3 := by
      rcases Nat.lt_trichotomy m.val 3 with hlt | heq | hgt
      · have hne3 : ¬ m = 3 := fun hh => by rw [hh] at hlt; exact Nat.lt_irrefl _ hlt
        have hne7 : ¬ m = 7 := fun hh => by rw [hh] at hlt; omega
        have hz : stKey.keypad m = 0 := by
          show (if m = 3 ∨ m = 7 then 1 else 0 : Nat) = 0
          rw [if_neg]
          rintro (hh | hh)
          · exact hne3 hh
          · exact hne7 hh
        exact absurd hz hm1
      · exact Fin.ext heq
      · have h3 := hm2 3 hgt
        exact absurd h3 (by decide)
    subst hmeq
    rw [hm3]
    decide
  · obtain ⟨_, _, _, _, hm4⟩ := (key_wait_semantics stKey).2 3 (by decide)
    simpa using hm4

/-! Timer preservation: every handler except `opFx15` leaves the delay
timer unchanged, and every handler except `opFx18` leaves the sound
timer unchanged.  These feed the claim about the timer decay in `cycle`. -/

@[simp] lemma op00E0_dt (s : Chip8) : (op00E0 s).delayTimer = s.delayTimer := rfl
@[simp] lemma op00E0_st (s : Chip8) : (op00E0 s).soundTimer = s.soundTimer := rfl
@[simp] lemma op1nnn_dt (s : Chip8) : (op1nnn s).delayTimer = s.delayTimer := rfl
@[simp] lemma op1nnn_st (s : Chip8) : (op1nnn s).soundTimer = s.soundTimer := rfl

@[simp] lemma op3xkk_dt (s : Chip8) : (op3xkk s).delayTimer = s.delayTimer := by
  simp only [op3xkk]; split <;> rfl
@[simp] lemma op3xkk_st (s : Chip8) : (op3xkk s).soundTimer = s.soundTimer := by
  simp only [op3xkk]; split <;> rfl
@[simp] lemma op4xkk_dt (s : Chip8) : (op4xkk s).delayTimer = s.delayTimer := by
  simp only [op4xkk]; split <;> rfl
@[simp] lemma op4xkk_st (s : Chip8) : (op4xkk s).soundTimer = s.soundTimer := by
  simp only [op4xkk]; split <;> rfl
@[simp] lemma op5xy0_dt (s : Chip8) : (op5xy0 s).delayTimer = s.delayTimer := by
  simp only [op5xy0]; split <;> rfl
@[simp] lemma op5xy0_st (s : Chip8) : (op5xy0 s).soundTimer = s.soundTimer := by
  simp only [op5xy0]; split <;> rfl

@[simp] lemma op6xkk_dt (s : Chip8) : (op6xkk s).delayTimer = s.delayTimer := rfl
@[simp] lemma op6xkk_st (s : Chip8) : (op6xkk s).soundTimer = s.soundTimer := rfl
@[simp] lemma op7xkk_dt (s : Chip8) : (op7xkk s).delayTimer = s.delayTimer := rfl
@[simp] lemma op7xkk_st (s : Chip8) : (op7xkk s).soundTimer = s.soundTimer := rfl
@[simp] lemma op8xy0_dt (s : Chip8) : (op8xy0 s).delayTimer = s.delayTimer := rfl
@[simp] lemma op8xy0_st (s : Chip8) : (op8xy0 s).soundTimer = s.soundTimer := rfl
@[simp] lemma op8xy1_dt (s : Chip8) : (op8xy1 s).delayTimer = s.delayTimer := rfl
@[simp] lemma op8xy1_st (s : Chip8) : (op8xy1 s).soundTimer = s.soundTimer := rfl
@[simp] lemma op8xy2_dt (s : Chip8) : (op8xy2 s).delayTimer = s.delayTimer := rfl
@[simp] lemma op8xy2_st (s : Chip8) : (op8xy2 s).soundTimer = s.soundTimer := rfl
@[simp] lemma op8xy3_dt (s : Chip8) : (op8xy3 s).delayTimer = s.delayTimer := rfl
@[simp] lemma op8xy3_st (s : Chip8) : (op8xy3 s).soundTimer = s.soundTimer := rfl

@[simp] lemma op8xy4_dt (s : Chip8) : (op8xy4 s).delayTimer = s.delayTimer := by
  simp only [op8xy4]; split <;> rfl
@[simp] lemma op8xy4_st (s : Chip8) : (op8xy4 s).soundTimer = s.soundTimer := by
  simp only [op8xy4]; split <;> rfl
@[simp] lemma op8xy5_dt (s : Chip8) : (op8xy5 s).delayTimer = s.delayTimer := by
  simp only [op8xy5]; split <;> rfl
@[simp] lemma op8xy5_st (s : Chip8) : (op8xy5 s).soundTimer = s.soundTimer := by
  simp only [op8xy5]; split <;> rfl

@[simp] lemma op8xy6_dt (s : Chip8) : (op8xy6 s).delayTimer = s.delayTimer := rfl
@[simp] lemma op8xy6_st (s : Chip8) : (op8xy6 s).soundTimer = s.soundTimer := rfl

@[simp] lemma op8xy7_dt (s : Chip8) : (op8xy7 s).delayTimer = s.delayTimer := by
  simp only [op8xy7]; split <;> rfl
@[simp] lemma op8xy7_st (s : Chip8) : (op8xy7 s).soundTimer = s.soundTimer := by
  simp only [op8xy7]; split <;> rfl

@[simp] lemma op8xyE_dt (s : Chip8) : (op8xyE s).delayTimer = s.delayTimer := rfl
@[simp] lemma op8xyE_st (s : Chip8) : (op8xyE s).soundTimer = s.soundTimer := rfl

@[simp] lemma op9xy0_dt (s : Chip8) : (op9xy0 s).delayTimer = s.delayTimer := by
  simp only [op9xy0]; split <;> rfl
@[simp] lemma op9xy0_st (s : Chip8) : (op9xy0 s).soundTimer = s.soundTimer := by
  simp only [op9xy0]; split <;> rfl

@[simp] lemma opAnnn_dt (s : Chip8) : (opAnnn s).delayTimer = s.delayTimer := rfl
@[simp] lemma opAnnn_st (s : Chip8) : (opAnnn s).soundTimer = s.soundTimer := rfl
@[simp] lemma opBnnn_dt (s : Chip8) : (opBnnn s).delayTimer = s.delayTimer := rfl
@[simp] lemma opBnnn_st (s : Chip8) : (opBnnn s).soundTimer = s.soundTimer := rfl
@[simp] lemma opCxkk_dt (r : Nat) (s : Chip8) : (opCxkk r s).delayTimer = s.delayTimer := rfl
@[simp] lemma opCxkk_st (r : Nat) (s : Chip8) : (opCxkk r s).soundTimer = s.soundTimer := rfl
@[simp] lemma opFx07_dt (s : Chip8) : (opFx07 s).delayTimer = s.delayTimer := rfl
@[simp] lemma opFx07_st (s : Chip8) : (opFx07 s).soundTimer = s.soundTimer := rfl

@[simp] lemma opFx0A_dt (s : Chip8) : (opFx0A s).delayTimer = s.delayTimer := by
  simp only [opFx0A]; split <;> rfl
@[simp] lemma opFx0A_st (s : Chip8) : (opFx0A s).soundTimer = s.soundTimer := by
  simp only [opFx0A]; split <;> rfl

@[simp] lemma opFx15_st (s : Chip8) : (opFx15 s).soundTimer = s.soundTimer := rfl
@[simp] lemma opFx18_dt (s : Chip8) : (opFx18 s).delayTimer = s.delayTimer := rfl
@[simp] lemma opFx1E_dt (s : Chip8) : (opFx1E s).delayTimer = s.delayTimer := rfl
@[simp] lemma opFx1E_st (s : Chip8) : (opFx1E s).soundTimer = s.soundTimer := rfl
@[simp] lemma opFx29_dt (s : Chip8) : (opFx29 s).delayTimer = s.delayTimer := rfl
@[simp] lemma opFx29_st (s : Chip8) : (opFx29 s).soundTimer = s.soundTimer := rfl

lemma storeRegs_timers (x : Fin 16) :
    ∀ fuel i t, (storeRegs x i fuel t).delayTimer = t.delayTimer
      ∧ (storeRegs x i fuel t).soundTimer = t.soundTimer := by
  intro fuel
  induction fuel with
  | zero => intro i t; exact ⟨rfl, rfl⟩
  | succ n ih =>
    intro i t
    simp only [storeRegs]
    split
    · exact ih (i + 1) _
    · exact ⟨rfl, rfl⟩

lemma loadRegs_timers (x : Fin 16) :
    ∀ fuel i t, (loadRegs x i fuel t).delayTimer = t.delayTimer
      ∧ (loadRegs x i fuel t).soundTimer = t.soundTimer := by
  intro fuel
  induction fuel with
  | zero => intro i t; exact ⟨rfl, rfl⟩
  | succ n ih =>
    intro i t
    simp only [loadRegs]
    split
    · exact ih (i + 1) _
    · exact ⟨rfl, rfl⟩

@[simp] lemma opFx55_dt (s : Chip8) : (opFx55 s).delayTimer = s.delayTimer :=
  (storeRegs_timers _ 16 0 s).1
@[simp] lemma opFx55_st (s : Chip8) : (opFx55 s).soundTimer = s.soundTimer :=
  (storeRegs_timers _ 16 0 s).2
@[simp] lemma opFx65_dt (s : Chip8) : (opFx65 s).delayTimer = s.delayTimer :=
  (loadRegs_timers _ 16 0 s).1
@[simp] lemma opFx65_st (s : Chip8) : (opFx65 s).soundTimer = s.soundTimer :=
  (loadRegs_timers _ 16 0 s).2

lemma op00EE_timers {s t : Chip8} (h : op00EE s = Except.ok t) :
    t.delayTimer = s.delayTimer ∧ t.soundTimer = s.soundTimer := by
  simp only [op00EE] at h
  split at h
  · injection h with h; subst h; exact ⟨rfl, rfl⟩
  · exact Except.noConfusion h

lemma op2nnn_timers {s t : Chip8} (h : op2nnn s = Except.ok t) :
    t.delayTimer = s.delayTimer ∧ t.soundTimer = s.soundTimer := by
  simp only [op2nnn] at h
  split at h
  · injection h with h; subst h; exact ⟨rfl, rfl⟩
  · exact Except.noConfusion h

lemma opEx9E_timers {s t : Chip8} (h : opEx9E s = Except.ok t) :
    t.delayTimer = s.delayTimer ∧ t.soundTimer = s.soundTimer := by
  simp only [opEx9E] at h
  split at h
  · split at h <;> (injection h with h; subst h; exact ⟨rfl, rfl⟩)
  · exact Except.noConfusion h

lemma opExA1_timers {s t : Chip8} (h : opExA1 s = Except.ok t) :
    t.delayTimer = s.delayTimer ∧ t.soundTimer = s.soundTimer := by
  simp only [opExA1] at h
  split at h
  · split at h <;> (injection h with h; subst h; exact ⟨rfl, rfl⟩)
  · exact Except.noConfusion h

lemma opFx33_timers {s t : Chip8} (h : opFx33 s = Except.ok t) :
    t.delayTimer = s.delayTimer ∧ t.soundTimer = s.soundTimer := by
  simp only [opFx33] at h
  repeat' split at h
  all_goals first
    | exact Except.noConfusion h
    | (injection h with h; subst h; exact ⟨rfl, rfl⟩)

lemma drawBit_dt (b : Nat) (ry : Fin 32) (cx : Fin 64) (s : Chip8) (c : Nat) :
    (drawBit b ry cx s c).delayTimer = s.delayTimer := by
  simp only [drawBit]
  split
  · split <;> rfl
  · rfl

lemma drawBit_st (b : Nat) (ry : Fin 32) (cx : Fin 64) (s : Chip8) (c : Nat) :
    (drawBit b ry cx s c).soundTimer = s.soundTimer := by
  simp only [drawBit]
  split
  · split <;> rfl
  · rfl

lemma foldl_drawBit_timers (b : Nat) (ry : Fin 32) (cx : Fin 64) :
    ∀ (l : List Nat) (s : Chip8),
      (l.foldl (drawBit b ry cx) s).delayTimer = s.delayTimer
      ∧ (l.foldl (drawBit b ry cx) s).soundTimer = s.soundTimer := by
  intro l
  induction l with
  | nil => intro s; exact ⟨rfl, rfl⟩
  | cons a as ih =>
    intro s
    simp only [List.foldl_cons]
    refine ⟨?_, ?_⟩
    · rw [(ih (drawBit b ry cx s a)).1, drawBit_dt]
    · rw [(ih (drawBit b ry cx s a)).2, drawBit_st]

lemma drawRow_timers (ry : Fin 32) (cx : Fin 64) (b : Nat) (s : Chip8) :
    (drawRow ry cx b s).delayTimer = s.delayTimer
    ∧ (drawRow ry cx b s).soundTimer = s.soundTimer :=
  foldl_drawBit_timers b ry cx (List.range 8) s

lemma drawRows_timers (ry : Fin 32) (cx : Fin 64) (hgt : Nat) :
    ∀ fuel row s t, drawRows ry cx hgt row fuel s = Except.ok t →
      t.delayTimer = s.delayTimer ∧ t.soundTimer = s.soundTimer := by
  intro fuel
  induction fuel with
  | zero =>
    intro row s t h
    injection h with h; subst h; exact ⟨rfl, rfl⟩
  | succ n ih =>
    intro row s t h
    simp only [drawRows] at h
    split at h
    · split at h
      · obtain ⟨h1, h2⟩ := ih (row + 1) _ t h
        rw [h1, h2, (drawRow_timers ry cx _ s).1, (drawRow_timers ry cx _ s).2]
        exact ⟨rfl, rfl⟩
      · exact Except.noConfusion h
    · injection h with h; subst h; exact ⟨rfl, rfl⟩

set_option maxHeartbeats 1000000 in
lemma opDxyn_timers {s t : Chip8} (h : opDxyn s = Except.ok t) :
    t.delayTimer = s.delayTimer ∧ t.soundTimer = s.soundTimer := by
  simp only [opDxyn] at h
  apply drawRows_timers _ _ _ 16 0 _ t h

lemma exec0_timers {s t : Chip8} (h : exec0 s = Except.ok t) :
    t.delayTimer = s.delayTimer ∧ t.soundTimer = s.soundTimer := by
  simp only [exec0] at h
  repeat' split at h
  all_goals first
    | exact op00EE_timers h
    | (injection h with h; subst h; exact ⟨by simp, by simp⟩)

lemma exec8_timers {s t : Chip8} (h : exec8 s = Except.ok t) :
    t.delayTimer = s.delayTimer ∧ t.soundTimer = s.soundTimer := by
  simp only [exec8] at h
  repeat' split at h
  all_goals (injection h with h; subst h; exact ⟨by simp, by simp⟩)

lemma execE_timers {s t : Chip8} (h : execE s = Except.ok t) :
    t.delayTimer = s.delayTimer ∧ t.soundTimer = s.soundTimer := by
  simp only [execE] at h
  repeat' split at h
  all_goals first
    | exact opEx9E_timers h
    | exact opExA1_timers h
    | (injection h with h; subst h; exact ⟨by simp, by simp⟩)

lemma execF_timers {s t : Chip8} (h : execF s = Except.ok t) :
    (¬ s.opcode &&& 0x00FF = 0x0015 → t.delayTimer = s.delayTimer)
  ∧ (¬ s.opcode &&& 0x00FF = 0x0018 → t.soundTimer = s.soundTimer) := by
  simp only [execF] at h
  repeat' split at h
  all_goals first
    | exact ⟨fun _ => (opFx33_timers h).1, fun _ => (opFx33_timers h).2⟩
    | (injection h with h; subst h;
       refine ⟨fun hn => ?_, fun hn => ?_⟩ <;>
         first
           | (simp; done)
           | exact absurd (by assumption) hn)

/-- The dispatcher preserves the delay timer unless the executed word is
LD DT,Vx, and the sound timer unless it is LD ST,Vx. -/
lemma execOp_timers (rndInt : Nat) (s t : Chip8) (h : execOp rndInt s = Except.ok t) :
    (¬(s.opcode &&& 0xF000 = 0xF000 ∧ s.opcode &&& 0x00FF = 0x0015) →
      t.delayTimer = s.delayTimer)
  ∧ (¬(s.opcode &&& 0xF000 = 0xF000 ∧ s.opcode &&& 0x00FF = 0x0018) →
      t.soundTimer = s.soundTimer) := by
  simp only [execOp] at h
  by_cases c0 : s.opcode &&& 0xF000 = 0x0000
  · rw [if_pos c0] at h
    exact ⟨fun _ => (exec0_timers h).1, fun _ => (exec0_timers h).2⟩
  rw [if_neg c0] at h
  by_cases c1 : s.opcode &&& 0xF000 = 0x1000
  · rw [if_pos c1] at h
    injection h with h; subst h
    exact ⟨fun _ => by simp, fun _ => by simp⟩
  rw [if_neg c1] at h
  by_cases c2 : s.opcode &&& 0xF000 = 0x2000
  · rw [if_pos c2] at h
    exact ⟨fun _ => (op2nnn_timers h).1, fun _ => (op2nnn_timers h).2⟩
  rw [if_neg c2] at h
  by_cases c3 : s.opcode &&& 0xF000 = 0x3000
  · rw [if_pos c3] at h
    injection h with h; subst h
    exact ⟨fun _ => by simp, fun _ => by simp⟩
  rw [if_neg c3] at h
  by_cases c4 : s.opcode &&& 0xF000 = 0x4000
  · rw [if_pos c4] at h
    injection h with h; subst h
    exact ⟨fun _ => by simp, fun _ => by simp⟩
  rw [if_neg c4] at h
  by_cases c5 : s.opcode &&& 0xF000 = 0x5000
  · rw [if_pos c5] at h
    injection h with h; subst h
    exact ⟨fun _ => by simp, fun _ => by simp⟩
  rw [if_neg c5] at h
  by_cases c6 : s.opcode &&& 0xF000 = 0x6000
  · rw [if_pos c6] at h
    injection h with h; subst h
    exact ⟨fun _ => by simp, fun _ => by simp⟩
  rw [if_neg c6] at h
  by_cases c7 : s.opcode &&& 0xF000 = 0x7000
  · rw [if_pos c7] at h
    injection h with h; subst h
    exact ⟨fun _ => by simp, fun _ => by simp⟩
  rw [if_neg c7] at h
  by_cases c8 : s.opcode &&& 0xF000 = 0x8000
  · rw [if_pos c8] at h
    exact ⟨fun _ => (exec8_timers h).1, fun _ => (exec8_timers h).2⟩
  rw [if_neg c8] at h
  by_cases c9 : s.opcode &&& 0xF000 = 0x9000
  · rw [if_pos c9] at h
    injection h with h; subst h
    exact ⟨fun _ => by simp, fun _ => by simp⟩
  rw [if_neg c9] at h
  by_cases cA : s.opcode &&& 0xF000 = 0xA000
  · rw [if_pos cA] at h
    injection h with h; subst h
    exact ⟨fun _ => by simp, fun _ => by simp⟩
  rw [if_neg cA] at h
  by_cases cB : s.opcode &&& 0xF000 = 0xB000
  · rw [if_pos cB] at h
    injection h with h; subst h
    exact ⟨fun _ => by simp, fun _ => by simp⟩
  rw [if_neg cB] at h
  by_cases cC : s.opcode &&& 0xF000 = 0xC000
  · rw [if_pos cC] at h
    injection h with h; subst h
    exact ⟨fun _ => by simp, fun _ => by simp⟩
  rw [if_neg cC] at h
  by_cases cD : s.opcode &&& 0xF000 = 0xD000
  · rw [if_pos cD] at h
    exact ⟨fun _ => (opDxyn_timers h).1, fun _ => (opDxyn_timers h).2⟩
  rw [if_neg cD] at h
  by_cases cE : s.opcode &&& 0xF000 = 0xE000
  · rw [if_pos cE] at h
    exact ⟨fun _ => (execE_timers h).1, fun _ => (execE_timers h).2⟩
  rw [if_neg cE] at h
  by_cases cF : s.opcode &&& 0xF000 = 0xF000
  · rw [if_pos cF] at h
    exact ⟨fun hn => (execF_timers h).1 fun hb => hn ⟨cF, hb⟩,
           fun hn => (execF_timers h).2 fun hb => hn ⟨cF, hb⟩⟩
  rw [if_neg cF] at h
  exact Except.noConfusion h

lemma tick_dt (s : Chip8) :
    (tick s).delayTimer = if 0 < s.delayTimer then s.delayTimer - 1 else s.delayTimer := by
  simp only [tick]
  split_ifs <;> rfl

lemma tick_st (s : Chip8) :
    (tick s).soundTimer = if 0 < s.soundTimer then s.soundTimer - 1 else s.soundTimer := by
  simp only [tick]
  split_ifs <;> rfl

/-- C8: over a successful cycle step whose fetched word is neither
LD DT,Vx nor LD ST,Vx, each timer decrements by exactly one when nonzero
and stays exactly zero when zero — a timer never wraps below zero, and
once zero it stays zero until explicitly reloaded. -/
theorem cycle_timer_decay (rndInt : Nat) (s s2 : Chip8) (w : Nat)
    (hf : fetch s = Except.ok w) (hc : cycle rndInt s = Except.ok s2)
    (hdt : ¬(w &&& 0xF000 = 0xF000 ∧ w &&& 0x00FF = 0x0015))
    (hst : ¬(w &&& 0xF000 = 0xF000 ∧ w &&& 0x00FF = 0x0018)) :
    ((0 < s.delayTimer → s2.delayTimer = s.delayTimer - 1)
      ∧ (s.delayTimer = 0 → s2.delayTimer = 0))
  ∧ ((0 < s.soundTimer → s2.soundTimer = s.soundTimer - 1)
      ∧ (s.soundTimer = 0 → s2.soundTimer = 0)) := by
  cases hE : execOp rndInt
      { s with opcode := w, programCounter := (s.programCounter + 2) % 65536 } with
  | error e =>
    simp only [cycle, hf, hE] at hc
    exact Except.noConfusion hc
  | ok s1 =>
    simp only [cycle, hf, hE] at hc
    injection hc with hc
    subst hc
    have ht := execOp_timers rndInt _ s1 hE
    have hd : s1.delayTimer = s.delayTimer := ht.1 hdt
    have hs : s1.soundTimer = s.soundTimer := ht.2 hst
    refine ⟨⟨fun hp => ?_, fun hz => ?_⟩, ⟨fun hp => ?_, fun hz => ?_⟩⟩
    · rw [tick_dt, hd, if_pos hp]
    · rw [tick_dt, hd, hz]
      simp
    · rw [tick_st, hs, if_pos hp]
    · rw [tick_st, hs, hz]
      simp

/-- A state about to execute JP 0x234 with delay timer 5. -/
def stC8 : Chip8 :=
  { registers := fun _ => 0
    memory := fun a => if a.val = 0x200 then 0x12 else if a.val = 0x201 then 0x34 else 0
    indexRegister := 0
    programCounter := 0x200
    stack := fun _ => 0
    stackPointer := 0
    delayTimer := 5
    soundTimer := 0
    opcode := 0
    keypad := fun _ => 0
    pixels := fun _ _ => 0 }

/-- The state after one cycle of stC8: the jump taken, delay timer
decayed from 5 to 4, sound timer still 0. -/
def stC8next : Chip8 :=
  { stC8 with opcode := 0x1234, programCounter := 0x234, delayTimer := 4 }

/-- C8 witness: the timer theorem applied to the concrete cycle from
stC8, whose fetched word 0x1234 is a jump. -/
theorem cycle_timer_decay_witness :
    stC8next.delayTimer = 5 - 1 ∧ stC8next.soundTimer = 0 := by
  have h := cycle_timer_decay 0 stC8 stC8next 0x1234 rfl rfl (by decide) (by decide)
  exact ⟨h.1.1 (by decide), h.2.2 rfl⟩

end Chip8Emu
